import Mathlib

/-!
# Verification of the Siliguri notices scraper (`src/scraper.py`)

Shallow embedding of the incremental discovery / enrichment / merge pipeline
of `scraper.py`.  Filenames and urls are Lean `String`s; where the Python code
parses or compares strings character by character we work on the underlying
`List Char` (`String.data`), with our own executable helpers modelling the
Python primitives used by the source (`str.split`, `int(...)`, `str(...)`,
lexicographic string comparison used by `sorted`, `str.startswith`,
`str.endswith`).

Network effects are modelled as explicit inputs of a run: the parsed listing
(the value `get_notice_links` returns, `[]` both on a request failure and on a
parse producing no matches) and an oracle giving, for each notice url, the
outcome of the secondary-page fetch.  Writing a JSON file is modelled as
appending a `(filename, record)` pair to a directory association list.
-/

/-! ## Character and string helpers (models of Python primitives) -/

/-- `beginsWith p l` : `p` is an initial segment of `l`
(model of Python `str.startswith`, on character lists). -/
def beginsWith : List Char → List Char → Bool
  | [], _ => true
  | _ :: _, [] => false
  | p :: ps, x :: xs => p = x && beginsWith ps xs

/-- Model of Python `str.endswith`, on character lists. -/
def finishesWith (p l : List Char) : Bool :=
  beginsWith p.reverse l.reverse

/-- Model of Python `s.split(c)` for a one-character separator `c`:
splits at every occurrence of `c`; `""` splits to `[""]`. -/
def splitOnChar (c : Char) : List Char → List (List Char)
  | [] => [[]]
  | x :: xs =>
    if x = c then [] :: splitOnChar c xs
    else (x :: (splitOnChar c xs).headD []) :: (splitOnChar c xs).tail

/-- Strict lexicographic comparison on character lists: the order Python uses
to compare (and hence `sorted`) strings, by code point. -/
def lexLt : List Char → List Char → Bool
  | [], [] => false
  | [], _ :: _ => true
  | _ :: _, [] => false
  | a :: as, b :: bs => if a < b then true else if b < a then false else lexLt as bs

/-- `lexMaxOpt l` is the greatest string of `l` under `lexLt`, i.e. the value
of Python's `sorted(l)[-1]`, and `none` for an empty `l`. -/
def lexMaxOpt (l : List String) : Option String :=
  l.foldl (fun acc f =>
    match acc with
    | none => some f
    | some m => if lexLt m.data f.data then some f else some m) none

/-- ASCII decimal digit test (the digits Python's `int(...)` accepts). -/
def digitB (c : Char) : Bool := 48 ≤ c.toNat && c.toNat ≤ 57

/-- Value of a digit string, most significant first (`foldl`). -/
def digitsVal (l : List Char) : Nat :=
  l.foldl (fun a c => 10 * a + (c.toNat - 48)) 0

/-- Parse a non-empty all-digit string (no sign). -/
def digitsToNat (l : List Char) : Option Nat :=
  if !l.isEmpty && l.all digitB then some (digitsVal l) else none

/-- Model of Python `int(s)` on the strings the scraper feeds it: an optional
sign followed by one or more decimal digits.  (Python's `int` additionally
tolerates surrounding whitespace and inner underscores; the pieces parsed by
the scraper have been split on `"_"` and `"."` already, and whitespace-bearing
names only join the skipped set, so this refinement is not modelled.) -/
def pyInt (l : List Char) : Option Int :=
  if l.head? = some '-' then (digitsToNat l.tail).map (fun n => -(n : Int))
  else if l.head? = some '+' then (digitsToNat l.tail).map (fun n => (n : Int))
  else (digitsToNat l).map (fun n => (n : Int))

/-- Decimal digits of `n`, most significant first; `fuel` bounds the recursion
(structural, hence kernel-computable).  `fuel` ≥ the number of digits. -/
def natToDigitsAux : Nat → Nat → List Char
  | 0, _ => []
  | fuel + 1, n =>
    if n < 10 then [Nat.digitChar n]
    else natToDigitsAux fuel (n / 10) ++ [Nat.digitChar (n % 10)]

/-- Decimal representation of `n` (model of Python `str` on a nonnegative int). -/
def natToDigits (n : Nat) : List Char := natToDigitsAux (n + 1) n

/-- Model of Python `str(k)` for an int `k` (as used by the f-string in
`get_next_filename`). -/
def intToChars (k : Int) : List Char :=
  if k < 0 then '-' :: natToDigits k.natAbs else natToDigits k.toNat

/-! ## Data model -/

/-- One notice record, as built by `get_notice_links` (lines 32-39) and
enriched by `main` (line 159).  A missing `google_drive` key and a JSON `null`
are both modelled as `none`. -/
structure Notice where
  title : String
  url : String
  date : Option String
  google_drive : Option String
deriving DecidableEq, Repr

/-- The persisted record shape produced by `save_to_json` (lines 117-121). -/
structure StoreData where
  scraped_at : String
  total_notices : Nat
  notices : List Notice
deriving DecidableEq, Repr

/-- The store directory: filenames with their (parsed) JSON contents, in the
order the files were created. -/
abbrev Dir := List (String × StoreData)

/-- `BASE_URL` (line 7), as a character list for the normalization model. -/
def BASE_URL : List Char := "https://siliguricollege.org.in/".data

/-- Url normalization from line 36 of `get_notice_links`:
`link if link.startswith("http") else BASE_URL + link`. -/
def normalizeUrl (link : List Char) : List Char :=
  if beginsWith "http".data link then link else BASE_URL ++ link

/-- Outcome of the HTTP fetch + parse of one notice's own page, the input of
`get_google_drive_link` (lines 55-60):
`success l` means the request succeeded and `l` is the `href` of the first
anchor matching `a[href*="drive.google.com"]` (`none` when the selector finds
nothing — a parse miss); `failure` is a `requests.RequestException`
(network error, timeout, or non-2xx via `raise_for_status`). -/
inductive SecondaryOutcome where
  | success (link : Option String)
  | failure
deriving DecidableEq, Repr

/-- `get_google_drive_link` (lines 49-64): the found link on success, `None`
on a parse miss, and `None` on any request exception (lines 62-64). -/
def get_google_drive_link (o : SecondaryOutcome) : Option String :=
  match o with
  | .success l => l
  | .failure => none

/-! ## Filename handling (`load_existing_notices`, `get_next_filename`) -/

/-- The filter on lines 73-76 and 95-98:
`f.startswith("notices_") and f.endswith(".json")`. -/
def matchesPat (f : String) : Bool :=
  beginsWith "notices_".data f.data && finishesWith ".json".data f.data

/-- The file `load_existing_notices` (line 80) picks as baseline:
`sorted(json_files)[-1]`, i.e. the lexicographically greatest matching name. -/
def latestMatching (names : List String) : Option String :=
  lexMaxOpt (names.filter matchesPat)

/-- `int(f.split("_")[1].split(".")[0])` (line 104) on a character list;
`none` models the `except: pass` (lines 106-107) for an index or parse error. -/
def extractNumL (f : List Char) : Option Int :=
  match (splitOnChar '_' f)[1]? with
  | none => none
  | some s =>
    match (splitOnChar '.' s)[0]? with
    | none => none
    | some t => pyInt t

/-- `extractNumL` on a filename string. -/
def extractNum (f : String) : Option Int := extractNumL f.data

/-- The `numbers` list of `get_next_filename` (lines 101-107). -/
def parsedNumbers (names : List String) : List Int :=
  (names.filter matchesPat).filterMap extractNum

/-- Python `max(l, default=d)`. -/
def pyMax (l : List Int) (d : Int) : Int :=
  match l with
  | [] => d
  | x :: xs => xs.foldl max x

/-- `max(numbers, default=0) + 1` (line 108). -/
def nextNum (names : List String) : Int := pyMax (parsedNumbers names) 0 + 1

/-- `get_next_filename` (lines 91-109), as a function of the directory
listing. -/
def get_next_filename (names : List String) : String :=
  if (names.filter matchesPat).isEmpty then "notices_1.json"
  else "notices_" ++ String.mk (intToChars (nextNum names)) ++ ".json"

/-! ## Store access -/

/-- Reading a file of the directory (the `open`/`json.load` on lines 82-83
and 168-169); contents are modelled as already parsed. -/
def lookupFile (dir : Dir) (f : String) : Option StoreData :=
  (dir.find? (fun p => decide (p.1 = f))).map Prod.snd

/-- The contents of the baseline file (`sorted(json_files)[-1]`), if any. -/
def latestData (dir : Dir) : Option StoreData :=
  (latestMatching (dir.map Prod.fst)).bind (fun f => lookupFile dir f)

/-- The `notices` array of the baseline file (`old_data.get("notices", [])`,
line 170), `[]` when there is no store file. -/
def baselineNotices (dir : Dir) : List Notice :=
  match latestData dir with
  | none => []
  | some d => d.notices

/-- `load_existing_notices` (lines 67-88): the urls of the baseline file's
notices (a set in Python; only membership and emptiness are consumed, so a
list is a faithful model).  Empty when no store file exists. -/
def load_existing_notices (dir : Dir) : List String :=
  (baselineNotices dir).map Notice.url

/-- `save_to_json` (lines 112-121): the record written, with `total_notices`
recomputed from the sequence. -/
def save_to_json (ts : String) (ns : List Notice) : StoreData :=
  { scraped_at := ts, total_notices := ns.length, notices := ns }

/-! ## The pipeline (`main`, lines 132-180) -/

/-- The diff on line 146:
`[n for n in all_notices if n["url"] not in existing_links]`. -/
def new_notices (all : List Notice) (existing : List String) : List Notice :=
  all.filter (fun n => !decide (n.url ∈ existing))

/-- The enrichment loop on lines 155-159: each new notice gets
`google_drive` set from `get_google_drive_link` of its url's fetch outcome. -/
def enrichNotices (fetch : String → SecondaryOutcome) (new : List Notice) :
    List Notice :=
  new.map (fun n => { n with google_drive := get_google_drive_link (fetch n.url) })

/-- The per-run external inputs: the listing as returned by
`get_notice_links` (`[]` on a request failure or when no panel matches), the
secondary-fetch oracle, and the `datetime.now().isoformat()` timestamp. -/
structure RunEnv where
  listing : List Notice
  fetchSecondary : String → SecondaryOutcome
  timestamp : String

/-- One run of `main` (lines 132-180) as a transformation of the store
directory.  Mirrors the control flow: early return when the listing is empty
(lines 141-143), early return when the diff is empty (lines 148-150),
otherwise enrich, combine (old first, new appended — lines 161-172) and write
a new numbered file (lines 174-176). -/
def runOnce (env : RunEnv) (dir : Dir) : Dir :=
  if env.listing.isEmpty then dir
  else if (new_notices env.listing (load_existing_notices dir)).isEmpty then dir
  else
    dir ++ [(get_next_filename (dir.map Prod.fst),
             save_to_json env.timestamp
               (if (load_existing_notices dir).isEmpty then
                  enrichNotices env.fetchSecondary
                    (new_notices env.listing (load_existing_notices dir))
                else
                  baselineNotices dir ++
                    enrichNotices env.fetchSecondary
                      (new_notices env.listing (load_existing_notices dir))))]

/-- The store file most recently written (runs only append). -/
def lastStore (dir : Dir) : Option StoreData :=
  dir.getLast?.map Prod.snd

/-- The notices of the most recently written store file. -/
def lastNotices (dir : Dir) : List Notice :=
  match lastStore dir with
  | none => []
  | some d => d.notices

/-- The urls of the most recently written store file. -/
def lastUrls (dir : Dir) : List String :=
  (lastNotices dir).map Notice.url

/-! ## Basic lemmas about the pipeline -/

theorem lastStore_append (dir : Dir) (p : String × StoreData) :
    lastStore (dir ++ [p]) = some p.2 := by
  simp [lastStore, List.getLast?_concat]

theorem load_existing_eq_nil (dir : Dir) :
    load_existing_notices dir = [] ↔ baselineNotices dir = [] := by
  simp [load_existing_notices]

/-- When the listing is non-empty and the diff is non-empty, a run appends
exactly one file whose notices are the baseline notices followed by the
enriched new notices.  (When the baseline is empty the code writes the new
notices alone, which coincides with `[] ++ new`.) -/
theorem runOnce_write (env : RunEnv) (dir : Dir)
    (h1 : env.listing ≠ [])
    (h2 : new_notices env.listing (load_existing_notices dir) ≠ []) :
    runOnce env dir = dir ++
      [(get_next_filename (dir.map Prod.fst),
        save_to_json env.timestamp
          (baselineNotices dir ++
            enrichNotices env.fetchSecondary
              (new_notices env.listing (load_existing_notices dir))))] := by
  unfold runOnce
  rw [if_neg (by simpa [List.isEmpty_iff] using h1),
      if_neg (by simpa [List.isEmpty_iff] using h2)]
  by_cases hx : load_existing_notices dir = []
  · rw [if_pos (by simpa [List.isEmpty_iff] using hx),
      (load_existing_eq_nil dir).mp hx, List.nil_append]
  · rw [if_neg (by simpa [List.isEmpty_iff] using hx)]

theorem lastNotices_runOnce_write (env : RunEnv) (dir : Dir)
    (h1 : env.listing ≠ [])
    (h2 : new_notices env.listing (load_existing_notices dir) ≠ []) :
    lastNotices (runOnce env dir) =
      baselineNotices dir ++
        enrichNotices env.fetchSecondary
          (new_notices env.listing (load_existing_notices dir)) := by
  rw [runOnce_write env dir h1 h2]
  simp [lastNotices, lastStore_append, save_to_json]

theorem map_url_enrichNotices (fetch : String → SecondaryOutcome)
    (l : List Notice) :
    (enrichNotices fetch l).map Notice.url = l.map Notice.url := by
  induction l with
  | nil => rfl
  | cons n l _ => simp [enrichNotices]

theorem map_url_new_notices (all : List Notice) (existing : List String) :
    (new_notices all existing).map Notice.url =
      (all.map Notice.url).filter (fun u => !decide (u ∈ existing)) := by
  induction all with
  | nil => rfl
  | cons n all ih =>
    unfold new_notices at ih ⊢
    by_cases h : n.url ∈ existing <;> simp [List.filter_cons, h, ih]

theorem mem_new_notices_not_mem (all : List Notice) (existing : List String)
    (n : Notice) (h : n ∈ new_notices all existing) : n.url ∉ existing := by
  have := (List.mem_filter.mp h).2
  simpa using this

/-! ## Lemmas on digits and number parsing -/

theorem digitB_ne_special {c : Char} (h : digitB c = true) :
    c ≠ '_' ∧ c ≠ '.' ∧ c ≠ '-' ∧ c ≠ '+' := by
  refine ⟨?_, ?_, ?_, ?_⟩ <;> (intro e; subst e; exact absurd h (by decide))

theorem digitB_digitChar {n : Nat} (h : n < 10) :
    digitB (Nat.digitChar n) = true := by
  interval_cases n <;> decide

theorem toNat_digitChar {n : Nat} (h : n < 10) :
    (Nat.digitChar n).toNat - 48 = n := by
  interval_cases n <;> decide

theorem digitsVal_concat (l : List Char) (c : Char) :
    digitsVal (l ++ [c]) = 10 * digitsVal l + (c.toNat - 48) := by
  simp [digitsVal, List.foldl_append]

theorem natToDigitsAux_spec (fuel : Nat) : ∀ (n : Nat), n < 10 ^ (fuel + 1) →
    (natToDigitsAux (fuel + 1) n).all digitB = true ∧
    natToDigitsAux (fuel + 1) n ≠ [] ∧
    digitsVal (natToDigitsAux (fuel + 1) n) = n := by
  induction fuel with
  | zero =>
    intro n hn
    have h10 : n < 10 := by simpa using hn
    unfold natToDigitsAux
    rw [if_pos h10]
    exact ⟨by simp [digitB_digitChar h10], by simp,
      by simp [digitsVal, toNat_digitChar h10]⟩
  | succ m ih =>
    intro n hn
    by_cases h10 : n < 10
    · unfold natToDigitsAux
      rw [if_pos h10]
      exact ⟨by simp [digitB_digitChar h10], by simp,
        by simp [digitsVal, toNat_digitChar h10]⟩
    · have hdiv : n / 10 < 10 ^ (m + 1) := by
        rw [Nat.div_lt_iff_lt_mul (by norm_num)]
        calc n < 10 ^ (m + 1 + 1) := hn
          _ = 10 ^ (m + 1) * 10 := by ring
      obtain ⟨ha, hne, hv⟩ := ih (n / 10) hdiv
      have hmod : n % 10 < 10 := Nat.mod_lt n (by norm_num)
      unfold natToDigitsAux
      rw [if_neg h10]
      refine ⟨?_, by simp, ?_⟩
      · simp [List.all_append, ha, digitB_digitChar hmod]
      · rw [digitsVal_concat, hv, toNat_digitChar hmod]
        omega

theorem natToDigits_spec (n : Nat) :
    (natToDigits n).all digitB = true ∧ natToDigits n ≠ [] ∧
    digitsVal (natToDigits n) = n := by
  have h : n < 10 ^ (n + 1) :=
    lt_of_lt_of_le (Nat.lt_pow_self (by norm_num) n)
      (Nat.pow_le_pow_right (by norm_num) (Nat.le_succ n))
  exact natToDigitsAux_spec n n h

theorem digitsToNat_natToDigits (n : Nat) :
    digitsToNat (natToDigits n) = some n := by
  obtain ⟨ha, hne, hv⟩ := natToDigits_spec n
  simp only [digitsToNat, ha, hv]
  rw [if_pos (by simp [List.isEmpty_iff, hne, ha])]

theorem pyInt_natToDigits (n : Nat) : pyInt (natToDigits n) = some (n : Int) := by
  obtain ⟨ha, hne, _⟩ := natToDigits_spec n
  obtain ⟨c, l, e⟩ := List.exists_cons_of_ne_nil hne
  have hc : digitB c = true := by
    rw [e] at ha
    exact (List.all_cons .. ▸ ha |> Bool.and_elim_left)
  have hminus : (natToDigits n).head? ≠ some '-' := by
    rw [e]
    simp [(digitB_ne_special hc).2.2.1]
  have hplus : (natToDigits n).head? ≠ some '+' := by
    rw [e]
    simp [(digitB_ne_special hc).2.2.2]
  unfold pyInt
  rw [if_neg hminus, if_neg hplus, digitsToNat_natToDigits]
  rfl

theorem pyInt_intToChars (k : Int) : pyInt (intToChars k) = some k := by
  unfold intToChars
  by_cases hk : k < 0
  · rw [if_pos hk]
    unfold pyInt
    rw [if_pos (by rfl)]
    have habs : ((k.natAbs : Nat) : Int) = -k := by omega
    simp [List.tail_cons, digitsToNat_natToDigits, habs]
  · rw [if_neg hk, pyInt_natToDigits]
    have htn : ((k.toNat : Nat) : Int) = k := by omega
    rw [htn]

/-! ## Lemmas on splitting -/

theorem splitOnChar_ne_nil (c : Char) (l : List Char) : splitOnChar c l ≠ [] := by
  induction l with
  | nil => simp [splitOnChar]
  | cons x xs ih =>
    unfold splitOnChar
    by_cases h : x = c <;> simp [h]

theorem splitOnChar_not_mem (c : Char) (l : List Char) (h : c ∉ l) :
    splitOnChar c l = [l] := by
  induction l with
  | nil => rfl
  | cons x xs ih =>
    have hx : x ≠ c := by rintro rfl; exact h (List.mem_cons_self x xs)
    have hxs : c ∉ xs := fun hm => h (List.mem_cons_of_mem _ hm)
    unfold splitOnChar
    rw [if_neg hx, ih hxs]
    rfl

theorem splitOnChar_append (c : Char) (l1 l2 : List Char) (h : c ∉ l1) :
    splitOnChar c (l1 ++ c :: l2) = l1 :: splitOnChar c l2 := by
  induction l1 with
  | nil =>
    show splitOnChar c (c :: l2) = [] :: splitOnChar c l2
    conv_lhs => unfold splitOnChar
    rw [if_pos rfl]
  | cons x xs ih =>
    have hx : x ≠ c := by rintro rfl; exact h (List.mem_cons_self x xs)
    have hxs : c ∉ xs := fun hm => h (List.mem_cons_of_mem _ hm)
    show splitOnChar c (x :: (xs ++ c :: l2)) = (x :: xs) :: splitOnChar c l2
    conv_lhs => unfold splitOnChar
    rw [if_neg hx, ih hxs]
    rfl

/-! ## The canonical filename parses back to its number -/

theorem dataAppend (a b : String) : (a ++ b).data = a.data ++ b.data := by
  cases a
  cases b
  rfl

theorem mem_intToChars (k : Int) :
    ∀ ch ∈ intToChars k, ch = '-' ∨ digitB ch = true := by
  unfold intToChars
  by_cases hk : k < 0
  · rw [if_pos hk]
    intro ch hch
    rcases List.mem_cons.mp hch with h | h
    · exact Or.inl h
    · exact Or.inr (List.all_eq_true.mp (natToDigits_spec k.natAbs).1 ch h)
  · rw [if_neg hk]
    intro ch hch
    exact Or.inr (List.all_eq_true.mp (natToDigits_spec k.toNat).1 ch hch)

theorem underscore_not_mem_intToChars (k : Int) : '_' ∉ intToChars k := by
  intro h
  rcases mem_intToChars k '_' h with e | hd
  · exact absurd e (by decide)
  · exact absurd hd (by decide)

theorem dot_not_mem_intToChars (k : Int) : '.' ∉ intToChars k := by
  intro h
  rcases mem_intToChars k '.' h with e | hd
  · exact absurd e (by decide)
  · exact absurd hd (by decide)

theorem extractNumL_canonical (k : Int) :
    extractNumL ("notices_".data ++ (intToChars k ++ ".json".data)) = some k := by
  have e1 : "notices_".data ++ (intToChars k ++ ".json".data)
      = "notices".data ++ '_' :: (intToChars k ++ ".json".data) := by
    have : "notices_".data = "notices".data ++ ['_'] := by decide
    rw [this, List.append_assoc]
    rfl
  have hu1 : '_' ∉ "notices".data := by decide
  have hu2 : '_' ∉ intToChars k ++ ".json".data := by
    intro h
    rcases List.mem_append.mp h with h | h
    · exact underscore_not_mem_intToChars k h
    · exact absurd h (by decide)
  have e2 : intToChars k ++ ".json".data
      = intToChars k ++ '.' :: "json".data := rfl
  have hd1 : '.' ∉ intToChars k := dot_not_mem_intToChars k
  unfold extractNumL
  rw [e1, splitOnChar_append _ _ _ hu1]
  rw [splitOnChar_not_mem _ _ hu2]
  simp only [List.getElem?_cons_succ, List.getElem?_cons_zero]
  rw [e2, splitOnChar_append _ _ _ hd1]
  simp only [List.getElem?_cons_zero]
  exact pyInt_intToChars k

theorem extractNum_get_next (names : List String) :
    extractNum (get_next_filename names) = some (nextNum names) := by
  unfold get_next_filename
  by_cases h : (names.filter matchesPat).isEmpty
  · rw [if_pos h]
    have hp : parsedNumbers names = [] := by
      unfold parsedNumbers
      rw [List.isEmpty_iff.mp h]
      rfl
    have hn : nextNum names = 1 := by
      unfold nextNum
      rw [hp]
      rfl
    rw [hn]
    decide
  · rw [if_neg h]
    unfold extractNum
    have hdata : ("notices_" ++ String.mk (intToChars (nextNum names)) ++ ".json").data
        = "notices_".data ++ (intToChars (nextNum names) ++ ".json".data) := by
      rw [dataAppend, dataAppend, List.append_assoc]
    rw [hdata, extractNumL_canonical]

/-! ## Bounds for `pyMax` -/

theorem le_foldl_max (ys : List Int) (b : Int) :
    b ≤ ys.foldl max b ∧ ∀ x ∈ ys, x ≤ ys.foldl max b := by
  induction ys generalizing b with
  | nil => simp
  | cons y ys ih =>
    refine ⟨le_trans (le_max_left b y) (ih (max b y)).1, ?_⟩
    intro x hx
    rcases List.mem_cons.mp hx with e | hm
    · subst e
      exact le_trans (le_max_right b x) (ih (max b x)).1
    · exact (ih (max b y)).2 x hm

theorem le_pyMax (l : List Int) (d : Int) (x : Int) (hx : x ∈ l) :
    x ≤ pyMax l d := by
  cases l with
  | nil => cases hx
  | cons y ys =>
    unfold pyMax
    rcases List.mem_cons.mp hx with e | hm
    · subst e
      exact (le_foldl_max ys x).1
    · exact (le_foldl_max ys y).2 x hm

/-! ## Concrete records used by witnesses and counterexamples -/

/-- A baseline notice for concrete scenarios. -/
def noticeA : Notice :=
  { title := "A", url := "https://x/a", date := none, google_drive := none }

/-- A fresh notice for concrete scenarios. -/
def noticeC : Notice :=
  { title := "C", url := "https://x/c", date := none, google_drive := none }

/-! ## Claims -/

/-- C9: in every record written to the store, the `total_notices` field equals
the length of the `notices` sequence — `save_to_json` recomputes the count
from the sequence on every write. -/
theorem c9_total_notices_recomputed (ts : String) (ns : List Notice) :
    (save_to_json ts ns).total_notices = (save_to_json ts ns).notices.length :=
  rfl

/-- C6: when the listing fetch fails or the parse yields no matches
(`get_notice_links` returns `[]`), the run terminates without performing any
diff, enrichment, or write: the persisted store directory is unchanged. -/
theorem c6_listing_failure_store_unchanged (env : RunEnv) (dir : Dir)
    (h : env.listing = []) : runOnce env dir = dir := by
  unfold runOnce
  rw [if_pos (by simp [h])]

/-- C6 witness: a concrete failed-listing run on a one-file store leaves the
store byte-identical. -/
theorem c6_listing_failure_witness :
    runOnce { listing := [], fetchSecondary := fun _ => .failure, timestamp := "t2" }
        [("notices_1.json", save_to_json "t1" [noticeA])] =
      [("notices_1.json", save_to_json "t1" [noticeA])] :=
  c6_listing_failure_store_unchanged _ _ rfl

/-- C10: for every directory state, the filename `get_next_filename` returns
is distinct from every existing file matching the `notices_*.json` pattern,
and its numeric suffix is strictly greater than every number parsed from the
existing names, so a run's store write never overwrites a previous store
file. -/
theorem c10_next_filename_fresh (names : List String) :
    (∀ f ∈ names, matchesPat f = true → f ≠ get_next_filename names) ∧
    (∀ f ∈ names, matchesPat f = true →
      ∀ k, extractNum f = some k → k < nextNum names) := by
  have key : ∀ f ∈ names, matchesPat f = true →
      ∀ k, extractNum f = some k → k < nextNum names := by
    intro f hf hm k hk
    have hmem : k ∈ parsedNumbers names :=
      List.mem_filterMap.mpr ⟨f, List.mem_filter.mpr ⟨hf, hm⟩, hk⟩
    have hle : k ≤ pyMax (parsedNumbers names) 0 := le_pyMax _ _ _ hmem
    unfold nextNum
    exact Int.lt_add_one_iff.mpr hle
  refine ⟨?_, key⟩
  intro f hf hm he
  have hext : extractNum f = some (nextNum names) := by
    rw [he, extractNum_get_next]
  exact absurd (key f hf hm _ hext) (lt_irrefl _)

/-- C10 witness: with an existing `notices_3.json` the next filename differs
from it and its number exceeds 3. -/
theorem c10_next_filename_witness :
    (("notices_3.json" : String) ≠ get_next_filename ["notices_3.json", "junk"]) ∧
    (3 : Int) < nextNum ["notices_3.json", "junk"] :=
  ⟨(c10_next_filename_fresh ["notices_3.json", "junk"]).1 "notices_3.json"
      (by decide) (by decide),
    (c10_next_filename_fresh ["notices_3.json", "junk"]).2 "notices_3.json"
      (by decide) (by decide) 3 (by decide)⟩

/-- C5: a secondary-fetch failure for one notice resolves to a null
`google_drive` for that notice only; processing continues, and when the fetch
fails for exactly one of three new notices, the merged store contains all
three, with only the failing one null. -/
theorem c5_partial_failure_contained (n1 n2 n3 : Notice) (l1 l3 ts : String)
    (fetch : String → SecondaryOutcome)
    (hf1 : fetch n1.url = .success (some l1))
    (hf2 : fetch n2.url = .failure)
    (hf3 : fetch n3.url = .success (some l3)) :
    lastNotices (runOnce
        { listing := [n1, n2, n3], fetchSecondary := fetch, timestamp := ts } []) =
      [{ n1 with google_drive := some l1 },
       { n2 with google_drive := none },
       { n3 with google_drive := some l3 }] := by
  have hload : load_existing_notices ([] : Dir) = [] := rfl
  have hnew : new_notices [n1, n2, n3] (load_existing_notices ([] : Dir)) =
      [n1, n2, n3] := by
    rw [hload]
    simp [new_notices]
  rw [lastNotices_runOnce_write _ _ (by simp) (by rw [hnew]; simp)]
  rw [hnew]
  have hbase : baselineNotices ([] : Dir) = [] := rfl
  rw [hbase, List.nil_append]
  simp [enrichNotices, hf1, hf2, hf3, get_google_drive_link]

/-- C5 witness: a concrete run of three new notices where the middle
secondary fetch fails. -/
theorem c5_partial_failure_witness :
    lastNotices (runOnce
        { listing := [{ title := "1", url := "https://x/1", date := none, google_drive := none },
                      { title := "2", url := "https://x/2", date := none, google_drive := none },
                      { title := "3", url := "https://x/3", date := none, google_drive := none }],
          fetchSecondary := fun u =>
            if u = "https://x/2" then .failure else .success (some ("d" ++ u)),
          timestamp := "t1" } []) =
      [{ title := "1", url := "https://x/1", date := none, google_drive := some "dhttps://x/1" },
       { title := "2", url := "https://x/2", date := none, google_drive := none },
       { title := "3", url := "https://x/3", date := none, google_drive := some "dhttps://x/3" }] :=
  c5_partial_failure_contained _ _ _ _ _ _ _ (by decide) (by decide) (by decide)

/-- C7: on a run that writes, every notice of the baseline file is carried
into the merged store verbatim (its whole record, `google_drive` included),
and enrichment only touches the new notices, whose urls are absent from the
baseline. -/
theorem c7_baseline_copied_verbatim (env : RunEnv) (dir : Dir)
    (h1 : env.listing ≠ [])
    (h2 : new_notices env.listing (load_existing_notices dir) ≠ []) :
    (∀ o ∈ baselineNotices dir, o ∈ lastNotices (runOnce env dir)) ∧
    (∀ n ∈ new_notices env.listing (load_existing_notices dir),
        n.url ∉ load_existing_notices dir) := by
  refine ⟨?_, fun n hn => mem_new_notices_not_mem _ _ n hn⟩
  intro o ho
  rw [lastNotices_runOnce_write env dir h1 h2]
  exact List.mem_append_left _ ho

/-- C7 witness: the baseline record `noticeA` (with its stored `google_drive`)
survives a concrete run verbatim, and the new `noticeC` is not in the
baseline. -/
theorem c7_baseline_copied_witness :
    noticeA ∈ lastNotices (runOnce
        { listing := [noticeA, noticeC], fetchSecondary := fun _ => .success none,
          timestamp := "t1" }
        [("notices_1.json", save_to_json "t0" [noticeA])]) ∧
    noticeC.url ∉ load_existing_notices [("notices_1.json", save_to_json "t0" [noticeA])] :=
  ⟨(c7_baseline_copied_verbatim _ _ (by decide) (by decide)).1 noticeA (by decide),
   (c7_baseline_copied_verbatim
        { listing := [noticeA, noticeC], fetchSecondary := fun _ => .success none,
          timestamp := "t1" }
        [("notices_1.json", save_to_json "t0" [noticeA])] (by decide) (by decide)).2
      noticeC (by decide)⟩

/-- C1 counterexample: with baseline `[a]` and listing yielding the new
notice `c`, the persisted sequence is `[a, c]`, not `[c, a]` — line 170 of
`main` appends the new notices after the old ones. -/
theorem c1_ordering_counterexample :
    lastNotices (runOnce
        { listing := [noticeA, noticeC], fetchSecondary := fun _ => .success none,
          timestamp := "t1" }
        [("notices_1.json", save_to_json "t0" [noticeA])]) = [noticeA, noticeC] ∧
    ([noticeA, noticeC] : List Notice) ≠ [noticeC, noticeA] := by decide

/-- C1 (amended): on every run that writes, the merged sequence places the
previously persisted notices first and the (enriched) new notices after them;
in the scenario of the claim the store is ordered `[a, c]`. -/
theorem c1_amended_new_after_old (env : RunEnv) (dir : Dir)
    (h1 : env.listing ≠ [])
    (h2 : new_notices env.listing (load_existing_notices dir) ≠ []) :
    lastNotices (runOnce env dir) =
      baselineNotices dir ++
        enrichNotices env.fetchSecondary
          (new_notices env.listing (load_existing_notices dir)) :=
  lastNotices_runOnce_write env dir h1 h2

/-- C1 witness: the amended ordering at the claim's own scenario. -/
theorem c1_amended_witness :
    lastNotices (runOnce
        { listing := [noticeA, noticeC], fetchSecondary := fun _ => .success none,
          timestamp := "t1" }
        [("notices_2.json", save_to_json "t0" [noticeA])]) =
      baselineNotices [("notices_2.json", save_to_json "t0" [noticeA])] ++
        enrichNotices (fun _ => .success none)
          (new_notices [noticeA, noticeC]
            (load_existing_notices [("notices_2.json", save_to_json "t0" [noticeA])])) :=
  c1_amended_new_after_old _ _ (by decide) (by decide)

/-- A run whose listing repeats only the already-persisted notice `a`,
carrying a fresh timestamp `"t2"`. -/
def unchangedEnv : RunEnv :=
  { listing := [noticeA], fetchSecondary := fun _ => .failure, timestamp := "t2" }

/-- A one-file store holding `a`, written at `"t1"`. -/
def oneFileDir : Dir := [("notices_1.json", save_to_json "t1" [noticeA])]

/-- C2 counterexample: with a successful listing whose urls are all already
persisted, the run performs no write at all: the directory is unchanged and
`scraped_at` keeps its old value `"t1"` instead of being refreshed to the
run's timestamp `"t2"` (lines 148-150 of `main` return before any write). -/
theorem c2_no_refresh_counterexample :
    runOnce unchangedEnv oneFileDir = oneFileDir ∧
    lastStore (runOnce unchangedEnv oneFileDir) = some (save_to_json "t1" [noticeA]) ∧
    (save_to_json "t1" [noticeA]).scraped_at ≠ "t2" := by decide

/-- C2 (amended): when the diff is empty the run performs no write — the
store, its notices content, its count and its `scraped_at` are all unchanged —
and hence re-running with the same listing leaves the store identical. -/
theorem c2_amended_empty_diff_no_write (env : RunEnv) (dir : Dir)
    (h : ∀ n ∈ env.listing, n.url ∈ load_existing_notices dir) :
    runOnce env dir = dir ∧
    ∀ env2 : RunEnv, env2.listing = env.listing →
      runOnce env2 (runOnce env dir) = dir := by
  have hnew : new_notices env.listing (load_existing_notices dir) = [] := by
    unfold new_notices
    rw [List.filter_eq_nil_iff]
    intro n hn
    simp [h n hn]
  have hrun : runOnce env dir = dir := by
    unfold runOnce
    by_cases hl : env.listing.isEmpty
    · rw [if_pos hl]
    · rw [if_neg hl, if_pos (by simp [hnew])]
  refine ⟨hrun, ?_⟩
  intro env2 he
  rw [hrun]
  have hnew2 : new_notices env2.listing (load_existing_notices dir) = [] := by
    rw [he]
    exact hnew
  unfold runOnce
  by_cases hl : env2.listing.isEmpty
  · rw [if_pos hl]
  · rw [if_neg hl, if_pos (by simp [hnew2])]

/-- C2 witness: a concrete unchanged-listing run (and re-run) leaves a
one-file store untouched. -/
theorem c2_amended_witness :
    runOnce { listing := [noticeA], fetchSecondary := fun _ => .failure,
              timestamp := "t3" }
        [("notices_1.json", save_to_json "t1" [noticeA])] =
      [("notices_1.json", save_to_json "t1" [noticeA])] ∧
    runOnce { listing := [noticeA], fetchSecondary := fun _ => .failure,
              timestamp := "t3" }
      (runOnce { listing := [noticeA], fetchSecondary := fun _ => .failure,
                 timestamp := "t3" }
        [("notices_1.json", save_to_json "t1" [noticeA])]) =
      [("notices_1.json", save_to_json "t1" [noticeA])] :=
  ⟨(c2_amended_empty_diff_no_write _ _ (by decide)).1,
   (c2_amended_empty_diff_no_write
      { listing := [noticeA], fetchSecondary := fun _ => .failure, timestamp := "t3" }
      [("notices_1.json", save_to_json "t1" [noticeA])] (by decide)).2 _ rfl⟩

/-- C3 counterexample: a listing containing the same url twice passes the
diff twice (line 146 filters only against the baseline) and the persisted
sequence then holds two entries with the same url. -/
theorem c3_duplicate_counterexample :
    new_notices [noticeC, noticeC] [] = [noticeC, noticeC] ∧
    ¬ (lastUrls (runOnce
        { listing := [noticeC, noticeC], fetchSecondary := fun _ => .success none,
          timestamp := "t1" } [])).Nodup := by decide

/-- C3 (amended): the diff output contains no url present in the baseline,
and — provided the source listing itself contains no duplicate urls and the
baseline file's urls are duplicate-free — the persisted sequence after a
writing run contains no two entries sharing a url. -/
theorem c3_amended_no_duplicates (env : RunEnv) (dir : Dir)
    (h1 : env.listing ≠ [])
    (h2 : new_notices env.listing (load_existing_notices dir) ≠ [])
    (h3 : (env.listing.map Notice.url).Nodup)
    (h4 : (load_existing_notices dir).Nodup) :
    (∀ n ∈ new_notices env.listing (load_existing_notices dir),
        n.url ∉ load_existing_notices dir) ∧
    (lastUrls (runOnce env dir)).Nodup := by
  refine ⟨fun n hn => mem_new_notices_not_mem _ _ n hn, ?_⟩
  unfold lastUrls
  rw [lastNotices_runOnce_write env dir h1 h2]
  rw [List.map_append, map_url_enrichNotices, map_url_new_notices]
  rw [List.nodup_append]
  refine ⟨h4, h3.filter _, ?_⟩
  intro u hu hu2
  have hmem := List.mem_filter.mp hu2
  have : u ∉ load_existing_notices dir := by simpa using hmem.2
  exact this hu

/-- C3 witness: the amended uniqueness at the claim's scenario. -/
theorem c3_amended_witness :
    noticeC.url ∉ load_existing_notices [("notices_1.json", save_to_json "t0" [noticeA])] ∧
    (lastUrls (runOnce
        { listing := [noticeA, noticeC], fetchSecondary := fun _ => .success none,
          timestamp := "t1" }
        [("notices_1.json", save_to_json "t0" [noticeA])])).Nodup :=
  ⟨(c3_amended_no_duplicates
      { listing := [noticeA, noticeC], fetchSecondary := fun _ => .success none,
        timestamp := "t1" }
      [("notices_1.json", save_to_json "t0" [noticeA])]
      (by decide) (by decide) (by decide) (by decide)).1 noticeC (by decide),
   (c3_amended_no_duplicates
      { listing := [noticeA, noticeC], fetchSecondary := fun _ => .success none,
        timestamp := "t1" }
      [("notices_1.json", save_to_json "t0" [noticeA])]
      (by decide) (by decide) (by decide) (by decide)).2⟩

/-! ## C4: the lexical-versus-numeric filename scenario -/

/-- The single notice discovered in run `i` of the monotonicity scenario. -/
def scnNotice (i : Nat) : Notice :=
  { title := "T", url := "https://x/" ++ String.mk (natToDigits i), date := none,
    google_drive := none }

/-- Run `i`'s inputs: the listing shows only notice `i`; secondary fetches
fail (irrelevant to the urls). -/
def scnEnv (i : Nat) : RunEnv :=
  { listing := [scnNotice i], fetchSecondary := fun _ => .failure, timestamp := "t" }

/-- The store directory after `n` runs of the scenario, starting empty. -/
def scnDir : Nat → Dir
  | 0 => []
  | n + 1 => runOnce (scnEnv (n + 1)) (scnDir n)

set_option maxRecDepth 100000

/-- C4: after ten runs the store files are `notices_1.json` … `notices_10.json`
and the lexically greatest — the baseline `load_existing_notices` picks — is
`notices_9.json`, not the numerically latest `notices_10.json`; run 11
therefore merges against a stale baseline and the url added by run 10 is
absent from the store run 11 writes, violating append-only monotonicity
(and the docstring "latest JSON file" of `load_existing_notices`). -/
theorem c4_lexical_sort_drops_url :
    latestMatching ((scnDir 10).map Prod.fst) = some "notices_9.json" ∧
    (scnNotice 10).url ∈ lastUrls (scnDir 10) ∧
    (scnNotice 10).url ∉ lastUrls (scnDir 11) := by decide

/-- C8 counterexample: the diff (line 146) performs no empty-url exclusion:
a raw notice whose url is the empty string passes straight through. -/
theorem c8_no_exclusion_counterexample :
    new_notices [{ title := "E", url := "", date := none, google_drive := none }] [] =
      [{ title := "E", url := "", date := none, google_drive := none }] := by decide

/-- C8 (amended): the diff produces exactly the ordered sub-sequence of the
listing whose urls are not in the baseline — an order-preserving sub-sequence
that excludes every baseline url and includes every listing notice whose url
is absent from the baseline; it has no empty-url exclusion step, but none is
needed in the composed pipeline because the extraction's normalization
(line 36) never yields an empty url. -/
theorem c8_amended_ordered_subsequence (all : List Notice) (base : List String) :
    (new_notices all base).Sublist all ∧
    (∀ n ∈ new_notices all base, n.url ∉ base) ∧
    (∀ n ∈ all, n.url ∉ base → n ∈ new_notices all base) ∧
    (∀ link : List Char, normalizeUrl link ≠ []) := by
  refine ⟨List.filter_sublist _, fun n hn => mem_new_notices_not_mem _ _ n hn,
    ?_, ?_⟩
  · intro n hn hurl
    exact List.mem_filter.mpr ⟨hn, by simp [hurl]⟩
  · intro link
    unfold normalizeUrl
    by_cases h : beginsWith "http".data link = true
    · rw [if_pos h]
      cases link with
      | nil => exact absurd h (by decide)
      | cons c cs => simp
    · rw [if_neg h]
      intro he
      rcases List.append_eq_nil.mp he with ⟨h1, _⟩
      exact absurd h1 (by decide)

/-- C8 witness: the amended diff contract at a concrete listing and baseline —
the non-baseline notice is kept (inclusion), its url is outside the baseline
(exclusion), and a concrete relative link normalizes to a non-empty url. -/
theorem c8_amended_witness :
    (new_notices [noticeC] ["https://x/a"]).Sublist [noticeC] ∧
    noticeC.url ∉ (["https://x/a"] : List String) ∧
    noticeC ∈ new_notices [noticeC] ["https://x/a"] ∧
    normalizeUrl "news.php".data ≠ [] :=
  ⟨(c8_amended_ordered_subsequence [noticeC] ["https://x/a"]).1,
   (c8_amended_ordered_subsequence [noticeC] ["https://x/a"]).2.1 noticeC (by decide),
   (c8_amended_ordered_subsequence [noticeC] ["https://x/a"]).2.2.1 noticeC
     (by decide) (by decide),
   (c8_amended_ordered_subsequence [noticeC] ["https://x/a"]).2.2.2 "news.php".data⟩

/-! ## C4 amended-direction fact kept for reference of the run-N superset
against the loaded baseline -/

/-- On every run that writes, the written store's url set contains every url
of the baseline that the run loaded (the lexically greatest matching file). -/
theorem runOnce_urls_superset_of_loaded (env : RunEnv) (dir : Dir)
    (h1 : env.listing ≠ [])
    (h2 : new_notices env.listing (load_existing_notices dir) ≠ []) :
    ∀ u ∈ load_existing_notices dir, u ∈ lastUrls (runOnce env dir) := by
  intro u hu
  unfold lastUrls
  rw [lastNotices_runOnce_write env dir h1 h2, List.map_append]
  exact List.mem_append_left _ hu
